import Mathlib

/-!
Shallow embedding of `src/lambda/lambda_function.py` (a CloudWatch-Logs
error monitor) and proofs about it.

Modelling conventions:
* Python strings are Lean `String`s; `s[:n]` is `String.take`, `.lower()`
  is `String.toLower`, `.strip()` is `pyStrip` (both-ends whitespace trim
  over the character list), `s.split(',')` is `pySplitComma`.
* A CloudWatch query-result record (a list of `{'field':…, 'value':…}`
  pairs) is a `List RecordField`; `next((f['value'] for f in r if f['field']=n), d)`
  is `getField r n` with a default.
* Python dicts that the code builds by insertion (`all_results`,
  `log_group_breakdown`) are association lists in insertion order, with
  `dictInsert` giving the dict update-or-append semantics.
* Calls to external AWS services are oracles in `Except String`: a
  `.error` value is a raised exception, whose propagation mirrors the
  Python `try`/`except` structure exactly.
* Float arithmetic in the breakdown percentage is modelled as exact
  rational arithmetic, with `%5.1f` rendering as round-half-even to one
  decimal place.
-/

/-- One field/value pair of a CloudWatch Logs Insights result record. -/
structure RecordField where
  field : String
  value : String
deriving DecidableEq, Repr

/-- One matched log record: the ordered field set returned for one match. -/
abbrev LogRecord := List RecordField

/-- Python `next((f['value'] for f in result if f['field'] == name), None)`. -/
def getField (r : LogRecord) (name : String) : Option String :=
  (r.find? (fun f => f.field = name)).map RecordField.value

/-- Python `next((f['value'] for f in result if f['field'] == name), 'N/A')`. -/
def getFieldD (r : LogRecord) (name : String) : String :=
  (getField r name).getD "N/A"

/-- Python truthiness of an optional string: `None` and `''` are falsy. -/
def pyTruthy : Option String → Bool
  | none => false
  | some s => s ≠ ""

/-- Whitespace test matching `str.strip()`'s default set on ASCII input. -/
def isPySpace (c : Char) : Bool :=
  c = ' ' || c = '\t' || c = '\n' || c = '\r'

/-- Python `str.strip()`: drop whitespace from both ends. -/
def pyStrip (s : String) : String :=
  String.mk ((((s.toList.dropWhile isPySpace).reverse.dropWhile isPySpace).reverse))

/-- Python `str.lower()` on ASCII input: per-character lowercasing. -/
def pyLower (s : String) : String :=
  String.mk (s.toList.map Char.toLower)

/-- Python `str.upper()` on ASCII input: per-character uppercasing. -/
def pyUpper (s : String) : String :=
  String.mk (s.toList.map Char.toUpper)

/-- Helper for `pySplitComma`: split a character list at every comma. -/
def splitCommaAux : List Char → List Char → List (List Char)
  | [], acc => [acc.reverse]
  | c :: cs, acc =>
      if c = ',' then acc.reverse :: splitCommaAux cs [] else splitCommaAux cs (c :: acc)

/-- Python `s.split(',')`: every comma separates, empty segments kept. -/
def pySplitComma (s : String) : List String :=
  (splitCommaAux s.toList []).map String.mk

/-- Embedding of `lambda_function.py` line 37:
`LOG_GROUPS = [lg.strip() for lg in LOG_GROUPS_RAW.split(',') if lg.strip()]`. -/
def LOG_GROUPS (raw : String) : List String :=
  ((pySplitComma raw).map pyStrip).filter (fun lg => pyTruthy (some lg))

/-- Embedding of `lambda_function.py` line 43:
`RECIPIENT_EMAILS = [email.strip() for email in RECIPIENT_EMAILS_RAW.split(',')]`. -/
def RECIPIENT_EMAILS (raw : String) : List String :=
  (pySplitComma raw).map pyStrip

/-- Count of commas in a string, used to state how many segments a split yields. -/
def commaCount (s : String) : Nat :=
  s.toList.count ','

/-- A UTC timestamp as the Python `datetime` fields the code reads. -/
structure DateTime where
  year : Nat
  month : Nat
  day : Nat
  hour : Nat
  minute : Nat
  second : Nat
deriving DecidableEq, Repr

/-- Zero-pad a number to two digits, as `strftime` does for `%m %d %H %M %S`. -/
def pad2 (n : Nat) : String :=
  if n < 10 then "0" ++ toString n else toString n

/-- Zero-pad a number to four digits, as `strftime` does for `%Y`. -/
def pad4 (n : Nat) : String :=
  if n < 10 then "000" ++ toString n
  else if n < 100 then "00" ++ toString n
  else if n < 1000 then "0" ++ toString n
  else toString n

/-- Python `t.strftime('%Y%m%d_%H%M')`. -/
def strftimeYmdHM (t : DateTime) : String :=
  pad4 t.year ++ pad2 t.month ++ pad2 t.day ++ "_" ++ pad2 t.hour ++ pad2 t.minute

/-- Python `t.strftime('%Y-%m-%d %H:%M:%S')`. -/
def strftimeFull (t : DateTime) : String :=
  pad4 t.year ++ "-" ++ pad2 t.month ++ "-" ++ pad2 t.day ++ " " ++
    pad2 t.hour ++ ":" ++ pad2 t.minute ++ ":" ++ pad2 t.second

/-- Embedding of `lambda_function.py` line 447: the attachment filename built in the
primary send path,
`f"{PROJECT_NAME.lower()}_{SERVICE_TYPE}_errors_{ENVIRONMENT.lower()}_{start_time.strftime('%Y%m%d_%H%M')}.txt"`. -/
def attachment_filename (project serviceType environment : String) (start_time : DateTime) :
    String :=
  pyLower project ++ "_" ++ serviceType ++ "_errors_" ++ pyLower environment ++ "_" ++
    strftimeYmdHM start_time ++ ".txt"

/-- Modelled from the spec's filename sentence (for comparison with the code):
`{project}_{serviceType}_errors_{environment}_{windowStartYYYYMMDD_HHMM}.txt`
with the embedded configuration values inserted unmodified. -/
def spec_claimed_filename (project serviceType environment : String) (start_time : DateTime) :
    String :=
  project ++ "_" ++ serviceType ++ "_errors_" ++ environment ++ "_" ++
    strftimeYmdHM start_time ++ ".txt"

/-- Observable events of one Notifier invocation, in order. -/
inductive NotifyEvent where
  | rawSent (content : String)
  | primaryFailed (err : String)
  | fallback (content : String) (delivered : Bool)
deriving DecidableEq, Repr

/-- Embedding of `lambda_function.py` lines 500-553, `send_simple_email`: the whole body is
one `try` whose only fallible operation is the `ses_client.send_email` call
(the `sendSimple` oracle, applied to the inline `log_content`); the
`except` clause only logs, so the function returns normally either way. -/
def send_simple_email (sendSimple : String → Except String Unit) (log_content : String) :
    Except String NotifyEvent :=
  match (do let _ ← sendSimple log_content
            pure (NotifyEvent.fallback log_content true) : Except String NotifyEvent) with
  | .ok ev => .ok ev
  | .error _ => .ok (NotifyEvent.fallback log_content false)

/-- Embedding of `lambda_function.py` lines 370-498, `send_email_with_attachment`: the body
builds the MIME message and calls `ses_client.send_raw_email` inside one
`try` (all modelled by the `sendRaw` oracle applied to the attached
`log_content`); the `except` clause logs and calls
`send_simple_email(log_content[:2000], ...)`, whose own result propagates. -/
def send_email_with_attachment (sendRaw sendSimple : String → Except String Unit)
    (log_content : String) : Except String (List NotifyEvent) :=
  match (do let _ ← sendRaw log_content
            pure (NotifyEvent.rawSent log_content) : Except String NotifyEvent) with
  | .ok ev => .ok [ev]
  | .error e => do
      let ev ← send_simple_email sendSimple (log_content.take 2000)
      pure [NotifyEvent.primaryFailed e, ev]

/-- One poll outcome as delivered by `get_query_results`: a status string and
the result records (a raised exception is the oracle's `.error`). -/
abbrev PollResult := Except String (String × List LogRecord)

/-- A poll status that keeps the loop waiting: anything other than
`Complete`, `Failed` or `Cancelled` (the code only tests those three). -/
def nonTerminalPoll (r : PollResult) : Prop :=
  ∃ s rs, r = .ok (s, rs) ∧ s ≠ "Complete" ∧ s ≠ "Failed" ∧ s ≠ "Cancelled"

/-- Embedding of `lambda_function.py` lines 231-251: the polling loop of `query_logs` with
`max_wait = 60` and `interval = 2`; `elapsed` starts at 0 and grows by 2
per iteration, so the k-th poll (0-based) happens at `elapsed = 2*k` and the
oracle is indexed by `elapsed / 2`. Falling out of the loop is the timeout
return of `[]`. -/
def poll_loop (poll : Nat → PollResult) (elapsed : Nat) :
    Except String (List LogRecord) :=
  if elapsed < 60 then
    match poll (elapsed / 2) with
    | .error e => .error e
    | .ok (status, results) =>
        if status = "Complete" then .ok results
        else if status = "Failed" ∨ status = "Cancelled" then .ok []
        else poll_loop poll (elapsed + 2)
  else .ok []
termination_by 60 - elapsed
decreasing_by omega

/-- Embedding of `lambda_function.py` lines 214-255, `query_logs`: `start_query` submission
(the `start` oracle) then the polling loop, all inside one `try` whose
`except` clause logs and returns `[]`. -/
def query_logs (start : Except String String) (poll : Nat → PollResult) :
    List LogRecord :=
  match (do let _ ← start
            poll_loop poll 0 : Except String (List LogRecord)) with
  | .ok rs => rs
  | .error _ => []

/-- Python dict update-or-append on an association list: `d[k] = v`. -/
def dictInsert {α : Type} (d : List (String × α)) (k : String) (v : α) :
    List (String × α) :=
  if d.any (fun p => p.1 = k) then
    d.map (fun p => if p.1 = k then (k, v) else p)
  else d ++ [(k, v)]

/-- The `ErrorSummary` dict built by `generate_error_summary`. -/
structure ErrorSummary where
  total_errors : Nat
  affected_log_groups : Nat
  log_group_breakdown : List (String × Nat)
  first_error_time : Option String
  last_error_time : Option String
deriving DecidableEq, Repr

/-- Embedding of `lambda_function.py` lines 277-283, the inner record loop of
`generate_error_summary`: extract `@timestamp`, and when it is truthy set
`first_error_time` if still falsy and always overwrite `last_error_time`. -/
def scanTimes (first last : Option String) : List LogRecord → Option String × Option String
  | [] => (first, last)
  | r :: rs =>
      let ts := getField r "@timestamp"
      if pyTruthy ts then
        scanTimes (if pyTruthy first then first else ts) ts rs
      else
        scanTimes first last rs

/-- One iteration of the outer loop of `generate_error_summary` over an
`(log_group, results)` entry: dict-update the breakdown and scan the
records for first/last times. -/
def summaryStep (acc : List (String × Nat) × Option String × Option String)
    (entry : String × List LogRecord) :
    List (String × Nat) × Option String × Option String :=
  let bd := dictInsert acc.1 entry.1 entry.2.length
  let fl := scanTimes acc.2.1 acc.2.2 entry.2
  (bd, fl)

/-- Embedding of `lambda_function.py` lines 261-285, `generate_error_summary`:
`total_errors` and `affected_log_groups` are copied from the inputs, then the
breakdown dict and the first/last error times are accumulated over the
entries of `all_results` in insertion order. -/
def generate_error_summary (all_results : List (String × List LogRecord))
    (total_errors : Nat) : ErrorSummary :=
  let acc := all_results.foldl summaryStep ([], none, none)
  { total_errors := total_errors
    affected_log_groups := all_results.length
    log_group_breakdown := acc.1
    first_error_time := acc.2.1
    last_error_time := acc.2.2 }

/-- Embedding of `lambda_function.py` lines 157-169, the accumulation loop of
`lambda_handler`: query each configured log group in order; a truthy
(non-empty) result list is stored under the group's key and counted into
`total_errors`, an empty one is dropped. -/
def collect_step (qr : String → List LogRecord)
    (acc : List (String × List LogRecord) × Nat) (log_group : String) :
    List (String × List LogRecord) × Nat :=
  let results := qr log_group
  if results.isEmpty then acc
  else (dictInsert acc.1 log_group results, acc.2 + results.length)

/-- The whole accumulation loop of `lambda_handler` (lines 157-169), folding
`collect_step` over the configured groups starting from the empty dict and
a zero count. -/
def collect_results (groups : List String) (qr : String → List LogRecord) :
    List (String × List LogRecord) × Nat :=
  groups.foldl (collect_step qr) ([], 0)

/-- Python `"=" * 80`. -/
def eqRule : String := String.mk (List.replicate 80 '=')

/-- Python `"-" * 80`. -/
def dashRule : String := String.mk (List.replicate 80 '-')

/-- Python `"#" * 80`. -/
def hashRule : String := String.mk (List.replicate 80 '#')

/-- Python f-string rendering of an optional string: `None` prints as "None". -/
def pyShowOpt : Option String → String
  | none => "None"
  | some s => s

/-- Right-align a string in a field of width `w` (Python `{:>w}`). -/
def padLeft (w : Nat) (s : String) : String :=
  String.mk (List.replicate (w - s.length) ' ') ++ s

/-- Round a rational to the nearest integer, ties to even: the rounding that
Python's fixed-point float formatting applies at exactly representable
ties. -/
def roundHalfEven (q : ℚ) : ℤ :=
  let fl := ⌊q⌋
  if q - fl < 1/2 then fl
  else if 1/2 < q - fl then fl + 1
  else if fl % 2 = 0 then fl else fl + 1

/-- Python `f"{x:.1f}"` for a non-negative value, with the float modelled as
an exact rational: one digit after the decimal point. -/
def fmt1 (q : ℚ) : String :=
  let tenths := roundHalfEven (q * 10)
  toString (tenths / 10) ++ "." ++ toString (tenths % 10)

/-- Python `sorted(d.items(), key=lambda x: x[1], reverse=True)`: a stable
sort by descending count. -/
def pySortDescByCount (l : List (String × Nat)) : List (String × Nat) :=
  l.mergeSort (fun a b => b.2 ≤ a.2)

/-- The static configuration the module reads from environment variables. -/
structure Config where
  projectName : String
  environment : String
  serviceName : String
  serviceType : String
  intervalMinutes : Nat
deriving Repr

/-- Embedding of `lambda_function.py` lines 326-327: the two lines appended per breakdown
entry, `f"  {log_group}\n"` and
`f"    {count:>4} errors ({percentage:>5.1f}%)\n\n"` with
`percentage = (count / summary['total_errors']) * 100`. -/
def breakdown_entry_lines (total_errors : Nat) (p : String × Nat) : List String :=
  ["  " ++ p.1 ++ "\n",
   "    " ++ padLeft 4 (toString p.2) ++ " errors (" ++
     padLeft 5 (fmt1 (((p.2 : ℚ) / (total_errors : ℚ)) * 100)) ++ "%)\n\n"]

/-- Embedding of `lambda_function.py` lines 320-327: the per-group breakdown block, emitted
only when the breakdown dict is truthy (non-empty), iterating the entries
sorted by descending count. -/
def breakdown_block (summary : ErrorSummary) : List String :=
  if summary.log_group_breakdown.isEmpty then []
  else
    ["ERROR BREAKDOWN BY LOG GROUP\n", dashRule ++ "\n"] ++
      (pySortDescByCount summary.log_group_breakdown).flatMap
        (breakdown_entry_lines summary.total_errors)

/-- Embedding of `lambda_function.py` lines 347-351: the five lines rendered for one
record, with `'N/A'` defaults for absent fields. -/
def render_record (i : Nat) (r : LogRecord) : List String :=
  ["ERROR #" ++ toString i ++ "\n",
   "Timestamp:   " ++ getFieldD r "@timestamp" ++ "\n",
   "Log Stream:  " ++ getFieldD r "@logStream" ++ "\n",
   "Message:     " ++ getFieldD r "@message" ++ "\n",
   dashRule ++ "\n\n"]

/-- Python `for i, result in enumerate(results[:50], 1)` applied to an
already-truncated list: render each record with its 1-based index. -/
def render_records (i : Nat) : List LogRecord → List String
  | [] => []
  | r :: rs => render_record i r ++ render_records (i + 1) rs

/-- Embedding of `lambda_function.py` lines 336-339: the per-group banner of the detailed
logs section. -/
def group_header_lines (log_group : String) (results : List LogRecord) : List String :=
  ["\n" ++ hashRule ++ "\n",
   "LOG GROUP: " ++ log_group ++ "\n",
   "Error Count: " ++ toString results.length ++ "\n",
   hashRule ++ "\n\n"]

/-- Embedding of `lambda_function.py` line 355: the truncation notice,
`f"... and {len(results) - 50} more errors (truncated for readability)\n\n"`. -/
def truncation_line (n : Nat) : String :=
  "... and " ++ toString n ++ " more errors (truncated for readability)\n\n"

/-- Embedding of `lambda_function.py` lines 335-355: one group's detailed-logs section:
banner, the first 50 records (`results[:50]`, enumerated from 1), and the
truncation notice exactly when more than 50 records exist. -/
def group_detail_lines (p : String × List LogRecord) : List String :=
  group_header_lines p.1 p.2 ++ render_records 1 (p.2.take 50) ++
    (if 50 < p.2.length then [truncation_line (p.2.length - 50)] else [])

/-- Embedding of `lambda_function.py` lines 291-364, `format_error_report`: the full report
string, `''.join(lines)` over the header, monitoring-period block,
summary-statistics block, breakdown block, detailed logs per group in
insertion order, and footer. -/
def format_error_report (cfg : Config) (all_results : List (String × List LogRecord))
    (start_time end_time : DateTime) (summary : ErrorSummary) : String :=
  String.join
    ([eqRule ++ "\n",
      pyUpper cfg.projectName ++ " - " ++ pyUpper cfg.serviceName ++
        " ERROR REPORT [" ++ cfg.environment ++ "]\n",
      eqRule ++ "\n\n",
      "MONITORING PERIOD\n",
      dashRule ++ "\n",
      "Start Time:  " ++ strftimeFull start_time ++ " UTC\n",
      "End Time:    " ++ strftimeFull end_time ++ " UTC\n",
      "Duration:    " ++ toString cfg.intervalMinutes ++ " minutes\n\n",
      "ERROR SUMMARY\n",
      dashRule ++ "\n",
      "Total Errors Found:     " ++ toString summary.total_errors ++ "\n",
      "Project:                " ++ cfg.projectName ++ "\n",
      "Environment:            " ++ cfg.environment ++ "\n",
      "Service:                " ++ cfg.serviceName ++ "\n",
      "Affected Log Groups:    " ++ toString summary.affected_log_groups ++ "\n",
      "First Error Occurred:   " ++ pyShowOpt summary.first_error_time ++ "\n",
      "Last Error Occurred:    " ++ pyShowOpt summary.last_error_time ++ "\n\n"] ++
     breakdown_block summary ++
     [eqRule ++ "\n\n",
      "DETAILED ERROR LOGS\n",
      eqRule ++ "\n\n"] ++
     all_results.flatMap group_detail_lines ++
     [eqRule ++ "\n",
      "Full details available in CloudWatch Logs Insights\n",
      eqRule ++ "\n",
      "END OF REPORT\n",
      eqRule ++ "\n"])

/-- The downstream components `lambda_handler` can invoke after querying. -/
inductive Component where
  | aggregator
  | formatter
  | notifier
deriving DecidableEq, Repr

/-- The value `lambda_handler` returns: Python
`{'statusCode': ..., 'body': ...}`. -/
structure LambdaResult where
  statusCode : Nat
  body : String
deriving DecidableEq, Repr

/-- Embedding of `lambda_function.py` lines 136-208, `lambda_handler`: query every
configured group accumulating non-empty results; with no results return the
no-errors message at once, otherwise run `generate_error_summary`,
`format_error_report` and `send_email_with_attachment` in order and return
the error-count message. The time window (computed from `datetime.utcnow()`)
enters as the `start_time`/`end_time` parameters; the second component of
the returned pair records which downstream components ran, in order. -/
def lambda_handler (cfg : Config) (groups : List String)
    (qr : String → List LogRecord)
    (sendRaw sendSimple : String → Except String Unit)
    (start_time end_time : DateTime) : LambdaResult × List Component :=
  let acc := collect_results groups qr
  let all_results := acc.1
  let total_errors := acc.2
  if all_results.isEmpty then
    ({ statusCode := 200,
       body := "No errors found in " ++ cfg.projectName ++ " " ++ cfg.serviceName }, [])
  else
    let error_summary := generate_error_summary all_results total_errors
    let log_content :=
      format_error_report cfg all_results start_time end_time error_summary
    let _sent := send_email_with_attachment sendRaw sendSimple log_content
    ({ statusCode := 200,
       body := "Found and reported " ++ toString total_errors ++ " errors in " ++
         cfg.projectName ++ " " ++ cfg.serviceName },
     [Component.aggregator, Component.formatter, Component.notifier])

/-- Oracle that raises on every raw send. -/
def rawFailOracle : String → Except String Unit := fun _ => .error "raw boom"

/-- Oracle that raises on every simple send. -/
def simpleFailOracle : String → Except String Unit := fun _ => .error "simple boom"

/-- The entries `lambda_handler`'s loop keeps: one per configured group whose
query returned a non-empty result list, in configuration order. -/
def selectedEntries (groups : List String) (qr : String → List LogRecord) :
    List (String × List LogRecord) :=
  (groups.filter (fun g => !(qr g).isEmpty)).map (fun g => (g, qr g))

/-- Fixture: three records with timestamps, group A's query result. -/
def recsA : List LogRecord :=
  [[⟨"@timestamp", "t1"⟩], [⟨"@timestamp", "t2"⟩], [⟨"@timestamp", "t3"⟩]]

/-- Fixture: query oracle where group "A" has 3 records and "B" has none. -/
def qrAB : String → List LogRecord :=
  fun g => if g = "A" then recsA else []

/-- Fixture: one record carrying all three rendered fields. -/
def sampleRec : LogRecord :=
  [⟨"@timestamp", "t"⟩, ⟨"@logStream", "s"⟩, ⟨"@message", "m"⟩]

/-- Fixture: a single group's result list of 60 records. -/
def recs60 : List LogRecord := List.replicate 60 sampleRec

/-- Fixture: a concrete summary with a two-entry breakdown. -/
def summaryBD : ErrorSummary :=
  { total_errors := 3
    affected_log_groups := 2
    log_group_breakdown := [("A", 1), ("B", 2)]
    first_error_time := some "t1"
    last_error_time := some "t3" }

/-- Fixture: a concrete configuration. -/
def cfgX : Config :=
  { projectName := "Proj"
    environment := "UAT"
    serviceName := "Svc"
    serviceType := "lambda"
    intervalMinutes := 60 }

/-- Fixture: a concrete time instant. -/
def t0 : DateTime := ⟨2026, 10, 12, 15, 0, 0⟩

/-- Fixture: a poll oracle whose first report is terminal `Failed`. -/
def pollFails : Nat → PollResult := fun _ => .ok ("Failed", recsA)

lemma splitCommaAux_length (l : List Char) :
    ∀ acc, (splitCommaAux l acc).length = l.count ',' + 1 := by
  induction l with
  | nil => intro acc; simp [splitCommaAux]
  | cons c cs ih =>
      intro acc
      by_cases hc : c = ','
      · subst hc
        simp [splitCommaAux, ih, List.count_cons]
      · simp [splitCommaAux, hc, ih, List.count_cons]

/-- C9: the recipient configuration string is split on commas and each
segment stripped of surrounding whitespace, keeping order and keeping empty
segments (e.g. from a trailing comma), so a split always yields one more
segment than there are commas; `"a@x.com, b@x.com"` parses to exactly
`["a@x.com", "b@x.com"]`; log-group parsing is the same split-and-strip
with the empty segments dropped. -/
theorem recipient_parsing_keeps_all_segments :
    RECIPIENT_EMAILS "a@x.com, b@x.com" = ["a@x.com", "b@x.com"] ∧
    RECIPIENT_EMAILS "a@x.com,b@x.com," = ["a@x.com", "b@x.com", ""] ∧
    (∀ raw : String, (RECIPIENT_EMAILS raw).length = commaCount raw + 1) ∧
    (∀ raw : String,
      LOG_GROUPS raw = (RECIPIENT_EMAILS raw).filter (fun lg => lg ≠ "")) := by
  refine ⟨by decide, by decide, ?_, ?_⟩
  · intro raw
    unfold RECIPIENT_EMAILS pySplitComma commaCount
    simp [splitCommaAux_length]
  · intro raw
    rfl

/-- C10, counterexample: with project `"Generic"` and environment `"UAT"`,
the filename the code builds lowercases those embedded configuration
values, so it differs from the spec's template in which embedded values are
inserted unmodified. -/
theorem attachment_filename_lowercases_counterexample :
    attachment_filename "Generic" "lambda" "UAT" ⟨2026, 10, 12, 15, 3, 0⟩ ≠
      spec_claimed_filename "Generic" "lambda" "UAT" ⟨2026, 10, 12, 15, 3, 0⟩ := by
  decide

/-- C10, amended: the attachment filename is the template
`{project}_{serviceType}_errors_{environment}_{windowStartYYYYMMDD_HHMM}.txt`
with the project and environment values lowercased on insertion and the
serviceType value inserted unmodified. -/
theorem attachment_filename_spec (project serviceType environment : String)
    (start_time : DateTime) :
    attachment_filename project serviceType environment start_time =
      spec_claimed_filename (pyLower project) serviceType (pyLower environment) start_time :=
  rfl

/-- C1: the Notifier never raises: for every pair of mail-service behaviours
and document the result is `.ok`; whenever the primary raw send raises, the
fallback send is invoked with exactly the first 2000 characters of the
document; and when that fallback raises too, the failure is recorded as an
undelivered fallback event with no exception escaping. -/
theorem notifier_never_raises (sendRaw sendSimple : String → Except String Unit)
    (log_content : String) :
    (∃ evs, send_email_with_attachment sendRaw sendSimple log_content = .ok evs) ∧
    (∀ e, sendRaw log_content = .error e →
      ∃ delivered,
        send_email_with_attachment sendRaw sendSimple log_content =
          .ok [NotifyEvent.primaryFailed e,
               NotifyEvent.fallback (log_content.take 2000) delivered]) ∧
    (∀ e e2, sendRaw log_content = .error e →
      sendSimple (log_content.take 2000) = .error e2 →
      send_email_with_attachment sendRaw sendSimple log_content =
        .ok [NotifyEvent.primaryFailed e,
             NotifyEvent.fallback (log_content.take 2000) false]) := by
  refine ⟨?_, ?_, ?_⟩
  · cases h1 : sendRaw log_content with
    | ok u =>
        exact ⟨[NotifyEvent.rawSent log_content], by
          simp [send_email_with_attachment, h1]⟩
    | error e =>
        cases h2 : sendSimple (log_content.take 2000) with
        | ok u =>
            exact ⟨[NotifyEvent.primaryFailed e,
                    NotifyEvent.fallback (log_content.take 2000) true], by
              simp [send_email_with_attachment, send_simple_email, h1, h2]⟩
        | error e2 =>
            exact ⟨[NotifyEvent.primaryFailed e,
                    NotifyEvent.fallback (log_content.take 2000) false], by
              simp [send_email_with_attachment, send_simple_email, h1, h2]⟩
  · intro e h1
    cases h2 : sendSimple (log_content.take 2000) with
    | ok u =>
        exact ⟨true, by simp [send_email_with_attachment, send_simple_email, h1, h2]⟩
    | error e2 =>
        exact ⟨false, by simp [send_email_with_attachment, send_simple_email, h1, h2]⟩
  · intro e e2 h1 h2
    simp [send_email_with_attachment, send_simple_email, h1, h2]

/-- C1 witness: at a concrete document with both sends failing, the Notifier
still returns normally, recording the primary failure and an undelivered
truncated fallback. -/
theorem notifier_never_raises_witness :
    send_email_with_attachment rawFailOracle simpleFailOracle "document" =
      .ok [NotifyEvent.primaryFailed "raw boom",
           NotifyEvent.fallback ("document".take 2000) false] :=
  (notifier_never_raises rawFailOracle simpleFailOracle "document").2.2
    "raw boom" "simple boom" rfl rfl

lemma dictInsert_of_fresh {α : Type} (d : List (String × α)) (k : String) (v : α)
    (h : ∀ p ∈ d, p.1 ≠ k) : dictInsert d k v = d ++ [(k, v)] := by
  unfold dictInsert
  have : d.any (fun p => p.1 = k) = false := by
    simp only [List.any_eq_false]
    intro p hp
    simpa using h p hp
  simp [this]

lemma dictInsert_ne_nil {α : Type} (d : List (String × α)) (k : String) (v : α) :
    dictInsert d k v ≠ [] := by
  unfold dictInsert
  by_cases h : d.any (fun p => p.1 = k)
  · simp only [h, if_true]
    intro hmap
    rcases List.map_eq_nil_iff.mp hmap with rfl
    simp at h
  · simp [h]

lemma mem_dictInsert {α : Type} {d : List (String × α)} {k : String} {v : α}
    {p : String × α} (h : p ∈ dictInsert d k v) : p ∈ d ∨ p = (k, v) := by
  unfold dictInsert at h
  by_cases ha : d.any (fun p => p.1 = k)
  · simp only [ha, if_true, List.mem_map] at h
    rcases h with ⟨q, hq, hqe⟩
    by_cases hk : q.1 = k
    · right
      simp only [hk, if_true] at hqe
      exact hqe.symm
    · left
      simp only [hk, if_false] at hqe
      exact hqe ▸ hq
  · simp only [ha, if_false] at h
    rcases List.mem_append.mp h with hd | hs
    · exact Or.inl hd
    · exact Or.inr (List.mem_singleton.mp hs)

lemma collect_foldl_eq (qr : String → List LogRecord) :
    ∀ (groups : List String) (acc : List (String × List LogRecord) × Nat),
      groups.Nodup → (∀ p ∈ acc.1, p.1 ∉ groups) →
      groups.foldl (collect_step qr) acc =
        (acc.1 ++ selectedEntries groups qr,
         acc.2 + ((selectedEntries groups qr).map (fun p => p.2.length)).sum) := by
  intro groups
  induction groups with
  | nil => intro acc _ _; simp [selectedEntries]
  | cons g gs ih =>
      intro acc hnd hfresh
      rw [List.nodup_cons] at hnd
      by_cases hq : (qr g).isEmpty
      · have hstep : collect_step qr acc g = acc := by
          simp [collect_step, hq]
        have hsel : selectedEntries (g :: gs) qr = selectedEntries gs qr := by
          simp [selectedEntries, hq]
        rw [List.foldl_cons, hstep, hsel]
        exact ih acc hnd.2 (fun p hp => fun hmem => hfresh p hp (List.mem_cons_of_mem g hmem))
      · have hstep : collect_step qr acc g =
            (acc.1 ++ [(g, qr g)], acc.2 + (qr g).length) := by
          rw [collect_step]
          simp only [hq, Bool.false_eq_true, if_false]
          rw [dictInsert_of_fresh]
          intro p hp
          exact fun hpk => hfresh p hp (hpk ▸ List.mem_cons_self g gs)
        have hsel : selectedEntries (g :: gs) qr = (g, qr g) :: selectedEntries gs qr := by
          simp [selectedEntries, hq]
        rw [List.foldl_cons, hstep, hsel]
        have hfresh' : ∀ p ∈ acc.1 ++ [(g, qr g)], p.1 ∉ gs := by
          intro p hp
          rcases List.mem_append.mp hp with hd | hs
          · exact fun hmem => hfresh p hd (List.mem_cons_of_mem g hmem)
          · rcases List.mem_singleton.mp hs with rfl
            exact hnd.1
        rw [ih _ hnd.2 hfresh']
        simp only [List.map_cons, List.sum_cons]
        rw [Prod.mk.injEq]
        exact ⟨by simp [List.append_assoc], by omega⟩

lemma collect_results_eq (groups : List String) (qr : String → List LogRecord)
    (hnd : groups.Nodup) :
    collect_results groups qr =
      (selectedEntries groups qr,
       ((selectedEntries groups qr).map (fun p => p.2.length)).sum) := by
  unfold collect_results
  rw [collect_foldl_eq qr groups ([], 0) hnd (by simp)]
  simp

lemma collect_foldl_nil_iff (qr : String → List LogRecord) :
    ∀ (groups : List String) (acc : List (String × List LogRecord) × Nat),
      (groups.foldl (collect_step qr) acc).1 = [] ↔
        acc.1 = [] ∧ ∀ g ∈ groups, qr g = [] := by
  intro groups
  induction groups with
  | nil => intro acc; simp
  | cons g gs ih =>
      intro acc
      by_cases hq : (qr g).isEmpty
      · have hstep : collect_step qr acc g = acc := by simp [collect_step, hq]
        rw [List.foldl_cons, hstep, ih acc]
        have : qr g = [] := List.isEmpty_iff.mp hq
        simp [this]
      · have hstep : collect_step qr acc g =
            (dictInsert acc.1 g (qr g), acc.2 + (qr g).length) := by
          rw [collect_step]
          simp [hq]
        rw [List.foldl_cons, hstep, ih]
        have h1 : dictInsert acc.1 g (qr g) ≠ [] := dictInsert_ne_nil _ _ _
        have h2 : qr g ≠ [] := fun h => hq (by simp [h])
        simp [h1, h2]

lemma collect_foldl_entries_ne_nil (qr : String → List LogRecord) :
    ∀ (groups : List String) (acc : List (String × List LogRecord) × Nat),
      (∀ p ∈ acc.1, p.2 ≠ []) →
      ∀ p ∈ (groups.foldl (collect_step qr) acc).1, p.2 ≠ [] := by
  intro groups
  induction groups with
  | nil => intro acc hacc; simpa using hacc
  | cons g gs ih =>
      intro acc hacc
      rw [List.foldl_cons]
      by_cases hq : (qr g).isEmpty
      · have hstep : collect_step qr acc g = acc := by simp [collect_step, hq]
        rw [hstep]
        exact ih acc hacc
      · have hstep : collect_step qr acc g =
            (dictInsert acc.1 g (qr g), acc.2 + (qr g).length) := by
          rw [collect_step]
          simp [hq]
        rw [hstep]
        refine ih _ ?_
        intro p hp
        rcases mem_dictInsert hp with hd | rfl
        · exact hacc p hd
        · exact fun h => hq (List.isEmpty_iff.mpr h)

lemma summary_foldl_breakdown :
    ∀ (ar : List (String × List LogRecord)) (bd : List (String × Nat))
      (fl : Option String × Option String),
      (∀ q ∈ bd, q.1 ∉ ar.map Prod.fst) → (ar.map Prod.fst).Nodup →
      (ar.foldl summaryStep (bd, fl)).1 = bd ++ ar.map (fun p => (p.1, p.2.length)) := by
  intro ar
  induction ar with
  | nil => intro bd fl _ _; simp
  | cons e tl ih =>
      intro bd fl hfresh hnd
      rw [List.map_cons, List.nodup_cons] at hnd
      have hstep : summaryStep (bd, fl) e =
          (bd ++ [(e.1, e.2.length)], scanTimes fl.1 fl.2 e.2) := by
        rw [summaryStep, dictInsert_of_fresh]
        intro q hq hqe
        exact hfresh q hq (by simp [hqe])
      rw [List.foldl_cons, hstep, ih]
      · simp [List.append_assoc]
      · intro q hq
        rcases List.mem_append.mp hq with hql | hqr
        · intro hmem
          exact hfresh q hql (List.mem_cons_of_mem _ hmem)
        · rcases List.mem_singleton.mp hqr with rfl
          exact hnd.1
      · exact hnd.2

lemma scanTimes_append (xs ys : List LogRecord) :
    ∀ f l, scanTimes f l (xs ++ ys) =
      scanTimes (scanTimes f l xs).1 (scanTimes f l xs).2 ys := by
  induction xs with
  | nil => intro f l; simp [scanTimes]
  | cons r rs ih =>
      intro f l
      by_cases h : pyTruthy (getField r "@timestamp")
      · simp only [List.cons_append, scanTimes, h, if_true]
        exact ih _ _
      · simp only [List.cons_append, scanTimes, h, Bool.false_eq_true, if_false]
        exact ih _ _

lemma summary_foldl_times :
    ∀ (ar : List (String × List LogRecord)) (bd : List (String × Nat))
      (fl : Option String × Option String),
      (ar.foldl summaryStep (bd, fl)).2 =
        scanTimes fl.1 fl.2 (ar.flatMap (fun p => p.2)) := by
  intro ar
  induction ar with
  | nil => intro bd fl; simp [scanTimes]
  | cons e tl ih =>
      intro bd fl
      rw [List.foldl_cons, List.flatMap_cons, scanTimes_append]
      exact ih _ _

lemma scanTimes_first_of_truthy (rs : List LogRecord) :
    ∀ f l, pyTruthy f = true → (scanTimes f l rs).1 = f := by
  induction rs with
  | nil => intro f l _; simp [scanTimes]
  | cons r rs ih =>
      intro f l hf
      by_cases h : pyTruthy (getField r "@timestamp")
      · simp only [scanTimes, h, if_true, hf]
        exact ih _ _ hf
      · simp only [scanTimes, h, Bool.false_eq_true, if_false]
        exact ih _ _ hf

lemma scanTimes_last_of_truthy (rs : List LogRecord)
    (hts : ∀ r ∈ rs, pyTruthy (getField r "@timestamp") = true) (hne : rs ≠ []) :
    ∀ f l, (scanTimes f l rs).2 =
      rs.getLast?.bind (fun r => getField r "@timestamp") := by
  induction rs with
  | nil => exact absurd rfl hne
  | cons r rs ih =>
      intro f l
      have hr : pyTruthy (getField r "@timestamp") = true := hts r (List.mem_cons_self r rs)
      cases rs with
      | nil =>
          simp only [scanTimes, hr, if_true, List.getLast?_singleton, Option.bind_some]
          simp [scanTimes]
      | cons r2 rs2 =>
          have hts' : ∀ x ∈ r2 :: rs2, pyTruthy (getField x "@timestamp") = true :=
            fun x hx => hts x (List.mem_cons_of_mem r hx)
          rw [List.getLast?_cons_cons]
          simp only [scanTimes, hr, if_true]
          exact ih hts' (by simp) _ _

lemma selectedEntries_keys (groups : List String) (qr : String → List LogRecord) :
    (selectedEntries groups qr).map Prod.fst = groups.filter (fun g => !(qr g).isEmpty) := by
  unfold selectedEntries
  rw [List.map_map]
  exact List.map_id _

/-- C4: for the results mapping and total that `lambda_handler` accumulates
over distinct configured groups, the Aggregator's `total_errors` equals the
sum of the per-group record-sequence lengths, and its breakdown maps each
group of the mapping, in order, to exactly its record-sequence length. -/
theorem aggregator_total_and_breakdown (groups : List String)
    (qr : String → List LogRecord) (hnd : groups.Nodup) :
    (collect_results groups qr).2 =
      (((collect_results groups qr).1).map (fun p => p.2.length)).sum ∧
    (generate_error_summary (collect_results groups qr).1
        (collect_results groups qr).2).total_errors =
      (((collect_results groups qr).1).map (fun p => p.2.length)).sum ∧
    (generate_error_summary (collect_results groups qr).1
        (collect_results groups qr).2).log_group_breakdown =
      ((collect_results groups qr).1).map (fun p => (p.1, p.2.length)) := by
  rw [collect_results_eq groups qr hnd]
  have hkeys : ((selectedEntries groups qr).map Prod.fst).Nodup := by
    rw [selectedEntries_keys]
    exact hnd.filter _
  refine ⟨rfl, rfl, ?_⟩
  show (List.foldl summaryStep ([], none, none) (selectedEntries groups qr)).1 = _
  rw [summary_foldl_breakdown (selectedEntries groups qr) [] (none, none)
    (by simp) hkeys]
  simp

/-- C4 witness: at the concrete two-group configuration where A has 3 records
and B none, the accumulated total equals the sum of the mapping's
record-sequence lengths. -/
theorem aggregator_total_and_breakdown_witness :
    (collect_results ["A", "B"] qrAB).2 =
      (((collect_results ["A", "B"] qrAB).1).map (fun p => p.2.length)).sum :=
  (aggregator_total_and_breakdown ["A", "B"] qrAB (by decide)).1

/-- C5: for a mapping with at least one record, all of whose records carry a
truthy `@timestamp` field, the Aggregator's `first_error_time` is the
timestamp of the first record in iteration order (groups in mapping order,
records in sequence order) and `last_error_time` that of the last record in
iteration order. -/
theorem aggregator_first_last_positional (all_results : List (String × List LogRecord))
    (total : Nat)
    (hne : all_results.flatMap (fun p => p.2) ≠ [])
    (hts : ∀ r ∈ all_results.flatMap (fun p => p.2),
      pyTruthy (getField r "@timestamp") = true) :
    (generate_error_summary all_results total).first_error_time =
      (all_results.flatMap (fun p => p.2)).head?.bind (fun r => getField r "@timestamp") ∧
    (generate_error_summary all_results total).last_error_time =
      (all_results.flatMap (fun p => p.2)).getLast?.bind
        (fun r => getField r "@timestamp") := by
  have hacc : (List.foldl summaryStep ([], none, none) all_results).2 =
      scanTimes none none (all_results.flatMap (fun p => p.2)) :=
    summary_foldl_times all_results [] (none, none)
  have hfirst : (generate_error_summary all_results total).first_error_time =
      (scanTimes none none (all_results.flatMap (fun p => p.2))).1 := by
    show (List.foldl summaryStep ([], none, none) all_results).2.1 = _
    rw [hacc]
  have hlast : (generate_error_summary all_results total).last_error_time =
      (scanTimes none none (all_results.flatMap (fun p => p.2))).2 := by
    show (List.foldl summaryStep ([], none, none) all_results).2.2 = _
    rw [hacc]
  rcases hrec : all_results.flatMap (fun p => p.2) with _ | ⟨r, rest⟩
  · exact absurd hrec hne
  · rw [hrec] at hfirst hlast hts
    have hr : pyTruthy (getField r "@timestamp") = true :=
      hts r (List.mem_cons_self r rest)
    constructor
    · rw [hfirst]
      have hn : pyTruthy none = false := rfl
      simp only [scanTimes, hr, if_true, hn, Bool.false_eq_true, if_false, List.head?_cons]
      show (scanTimes (getField r "@timestamp") (getField r "@timestamp") rest).1 =
          getField r "@timestamp"
      exact scanTimes_first_of_truthy rest _ _ hr
    · rw [hlast]
      rw [scanTimes_last_of_truthy (r :: rest) hts (by simp)]

/-- C5 witness: on the concrete single-group mapping with records timestamped
`t1, t2, t3`, the first and last error times are `t1` and `t3`. -/
theorem aggregator_first_last_positional_witness :
    (generate_error_summary [("A", recsA)] 3).first_error_time =
      ([("A", recsA)].flatMap (fun p => p.2)).head?.bind
        (fun r => getField r "@timestamp") ∧
    (generate_error_summary [("A", recsA)] 3).last_error_time =
      ([("A", recsA)].flatMap (fun p => p.2)).getLast?.bind
        (fun r => getField r "@timestamp") :=
  aggregator_first_last_positional [("A", recsA)] 3 (by decide) (by decide)

/-- C6: every entry of the results mapping the Orchestrator accumulates has a
non-empty record sequence (groups with zero records are dropped, not kept);
and in the concrete scenario of groups A (3 records) and B (0 records) the
mapping has exactly the key A, the total is 3, and the summary reports one
affected log group. -/
theorem results_mapping_drops_empty_groups :
    (∀ (groups : List String) (qr : String → List LogRecord),
        ∀ p ∈ (collect_results groups qr).1, p.2 ≠ []) ∧
    collect_results ["A", "B"] qrAB = ([("A", recsA)], 3) ∧
    (generate_error_summary [("A", recsA)] 3).total_errors = 3 ∧
    (generate_error_summary [("A", recsA)] 3).affected_log_groups = 1 := by
  refine ⟨?_, by decide, by decide, by decide⟩
  intro groups qr p hp
  exact collect_foldl_entries_ne_nil qr groups ([], 0) (by simp) p hp

/-- C6 witness: the concrete entry that the two-group scenario keeps is
non-empty. -/
theorem results_mapping_drops_empty_groups_witness :
    ("A", recsA).2 ≠ [] :=
  results_mapping_drops_empty_groups.1 ["A", "B"] qrAB ("A", recsA) (by decide)

lemma render_records_length (l : List LogRecord) :
    ∀ i, (render_records i l).length = 5 * l.length := by
  induction l with
  | nil => intro i; simp [render_records]
  | cons r rs ih =>
      intro i
      simp only [render_records, render_record, List.length_append, ih, List.length_cons,
        List.length_nil]
      omega

/-- C7: a detailed-logs section for a group with more than 50 records renders
exactly the first 50 records (5 lines each) followed by exactly one
truncation line stating the remainder; with at most 50 records it renders
them all and no truncation line; for 60 records the section ends with the
line `... and 10 more errors (truncated for readability)`. -/
theorem formatter_truncates_at_50 (g : String) (rs : List LogRecord) :
    (50 < rs.length →
      group_detail_lines (g, rs) =
        group_header_lines g rs ++ render_records 1 (rs.take 50) ++
          [truncation_line (rs.length - 50)] ∧
      (rs.take 50).length = 50 ∧
      (render_records 1 (rs.take 50)).length = 5 * 50) ∧
    (rs.length ≤ 50 →
      group_detail_lines (g, rs) = group_header_lines g rs ++ render_records 1 rs) ∧
    group_detail_lines ("G", recs60) =
      group_header_lines "G" recs60 ++ render_records 1 (recs60.take 50) ++
        ["... and 10 more errors (truncated for readability)\n\n"] := by
  refine ⟨?_, ?_, ?_⟩
  · intro h
    have ht : (rs.take 50).length = 50 := by
      rw [List.length_take]
      omega
    refine ⟨?_, ht, ?_⟩
    · unfold group_detail_lines
      simp [h]
    · rw [render_records_length, ht]
  · intro h
    have hnot : ¬ 50 < rs.length := by omega
    unfold group_detail_lines
    simp [hnot, List.take_of_length_le h]
  · have hlen : recs60.length = 60 := by simp [recs60]
    have htr : truncation_line 10 =
        "... and 10 more errors (truncated for readability)\n\n" := by decide
    unfold group_detail_lines
    rw [hlen]
    simp only [show (50 < 60) = True by simp, if_true]
    rw [show (60 - 50 : Nat) = 10 from rfl, htr]

/-- C7 witness: applying the truncation case at the concrete 60-record group
really does yield 50 rendered records. -/
theorem formatter_truncates_at_50_witness :
    (recs60.take 50).length = 50 :=
  ((formatter_truncates_at_50 "G" recs60).1 (by decide)).2.1

/-- C8: for a non-empty breakdown with positive total, the formatter's
breakdown block lists the groups sorted by descending error count (a
permutation of the breakdown with pairwise non-increasing counts), and each
group's rendered line shows its count and the percentage
`count / total × 100` to one decimal place. -/
theorem breakdown_sorted_desc_with_percentages (summary : ErrorSummary)
    (hne : summary.log_group_breakdown ≠ []) (_hpos : 0 < summary.total_errors) :
    breakdown_block summary =
      ["ERROR BREAKDOWN BY LOG GROUP\n", dashRule ++ "\n"] ++
        (pySortDescByCount summary.log_group_breakdown).flatMap
          (breakdown_entry_lines summary.total_errors) ∧
    (pySortDescByCount summary.log_group_breakdown).Perm summary.log_group_breakdown ∧
    (pySortDescByCount summary.log_group_breakdown).Pairwise (fun a b => b.2 ≤ a.2) ∧
    (∀ p ∈ pySortDescByCount summary.log_group_breakdown,
      breakdown_entry_lines summary.total_errors p =
        ["  " ++ p.1 ++ "\n",
         "    " ++ padLeft 4 (toString p.2) ++ " errors (" ++
           padLeft 5 (fmt1 (((p.2 : ℚ) / (summary.total_errors : ℚ)) * 100)) ++
           "%)\n\n"]) := by
  refine ⟨?_, ?_, ?_, ?_⟩
  · unfold breakdown_block
    simp [hne]
  · exact List.mergeSort_perm _ _
  · have hs := @List.sorted_mergeSort (String × Nat)
      (fun a b => decide (b.2 ≤ a.2))
      (fun a b c hab hbc => by
        simp only [decide_eq_true_eq] at *
        omega)
      (fun a b => by
        simp only [Bool.or_eq_true, decide_eq_true_eq]
        omega)
      summary.log_group_breakdown
    exact hs.imp (fun h => by simpa using h)
  · intro p _
    rfl

/-- C8 witness: at the concrete summary with counts A=1, B=2 and total 3, the
rendered breakdown order is sorted by descending count. -/
theorem breakdown_sorted_desc_with_percentages_witness :
    (pySortDescByCount summaryBD.log_group_breakdown).Pairwise
      (fun a b => b.2 ≤ a.2) :=
  (breakdown_sorted_desc_with_percentages summaryBD (by decide) (by decide)).2.2.1

/-- C2: the Orchestrator's entry point returns status 200 on every path; when
no configured group produced any record it returns the "no errors" body and
invokes none of Aggregator, Formatter, Notifier; when some group produced a
record it invokes Aggregator, then Formatter, then Notifier and returns the
error-count body. -/
theorem orchestrator_always_200 (cfg : Config) (groups : List String)
    (qr : String → List LogRecord) (sendRaw sendSimple : String → Except String Unit)
    (st et : DateTime) :
    (lambda_handler cfg groups qr sendRaw sendSimple st et).1.statusCode = 200 ∧
    ((∀ g ∈ groups, qr g = []) →
      (lambda_handler cfg groups qr sendRaw sendSimple st et).2 = [] ∧
      (lambda_handler cfg groups qr sendRaw sendSimple st et).1.body =
        "No errors found in " ++ cfg.projectName ++ " " ++ cfg.serviceName) ∧
    ((∃ g ∈ groups, qr g ≠ []) →
      (lambda_handler cfg groups qr sendRaw sendSimple st et).2 =
        [Component.aggregator, Component.formatter, Component.notifier] ∧
      (lambda_handler cfg groups qr sendRaw sendSimple st et).1.body =
        "Found and reported " ++ toString (collect_results groups qr).2 ++
          " errors in " ++ cfg.projectName ++ " " ++ cfg.serviceName) := by
  have hiff : ((collect_results groups qr).1 = []) ↔ ∀ g ∈ groups, qr g = [] := by
    have h := collect_foldl_nil_iff qr groups ([], 0)
    simpa [collect_results] using h
  by_cases hmt : (collect_results groups qr).1 = []
  · have hempty : (collect_results groups qr).1.isEmpty = true := by
      simp [hmt]
    refine ⟨?_, ?_, ?_⟩
    · simp [lambda_handler, hempty]
    · intro _
      constructor
      · simp [lambda_handler, hempty]
      · simp [lambda_handler, hempty]
    · rintro ⟨g, hg, hne⟩
      exact absurd (hiff.mp hmt g hg) hne
  · have hempty : (collect_results groups qr).1.isEmpty = false := by
      rcases h : (collect_results groups qr).1 with _ | ⟨p, tl⟩
      · exact absurd h hmt
      · simp
    refine ⟨?_, ?_, ?_⟩
    · simp [lambda_handler, hempty]
    · intro hall
      exact absurd (hiff.mpr hall) hmt
    · intro _
      constructor
      · simp [lambda_handler, hempty]
      · simp [lambda_handler, hempty]

/-- C2 witness: at the concrete two-group scenario with records present, the
handler runs Aggregator, Formatter then Notifier and reports the count. -/
theorem orchestrator_always_200_witness :
    (lambda_handler cfgX ["A", "B"] qrAB rawFailOracle simpleFailOracle t0 t0).2 =
      [Component.aggregator, Component.formatter, Component.notifier] ∧
    (lambda_handler cfgX ["A", "B"] qrAB rawFailOracle simpleFailOracle t0 t0).1.body =
      "Found and reported " ++ toString (collect_results ["A", "B"] qrAB).2 ++
        " errors in " ++ cfgX.projectName ++ " " ++ cfgX.serviceName :=
  (orchestrator_always_200 cfgX ["A", "B"] qrAB rawFailOracle simpleFailOracle t0 t0).2.2
    ⟨"A", by decide, by decide⟩

lemma poll_loop_unfold (poll : Nat → PollResult) (m : Nat) (h : m < 30) :
    poll_loop poll (2 * m) =
      match poll m with
      | .error e => .error e
      | .ok (status, results) =>
          if status = "Complete" then .ok results
          else if status = "Failed" ∨ status = "Cancelled" then .ok []
          else poll_loop poll (2 * m + 2) := by
  rw [poll_loop]
  have hlt : 2 * m < 60 := by omega
  rw [if_pos hlt]
  have hdiv : 2 * m / 2 = m := by omega
  rw [hdiv]

lemma poll_loop_timeout (poll : Nat → PollResult) : poll_loop poll 60 = .ok [] := by
  rw [poll_loop]
  simp

lemma poll_loop_skip (poll : Nat → PollResult) :
    ∀ m : Nat, m ≤ 30 → (∀ k, k < m → nonTerminalPoll (poll k)) →
      poll_loop poll 0 = poll_loop poll (2 * m) := by
  intro m
  induction m with
  | zero => intro _ _; rfl
  | succ n ih =>
      intro hm hk
      have h1 : poll_loop poll 0 = poll_loop poll (2 * n) :=
        ih (by omega) (fun k hkn => hk k (by omega))
      obtain ⟨s, rs, heq, hc, hf, hcn⟩ := hk n (by omega)
      rw [h1, poll_loop_unfold poll n (by omega), heq]
      show (if s = "Complete" then Except.ok rs
            else if s = "Failed" ∨ s = "Cancelled" then Except.ok []
            else poll_loop poll (2 * n + 2)) = poll_loop poll (2 * (n + 1))
      rw [if_neg hc, if_neg (fun hor => hor.elim hf hcn)]
      congr 1

lemma query_logs_ok_eq (start_id : String) (poll : Nat → PollResult) :
    query_logs (.ok start_id) poll =
      (match poll_loop poll 0 with | .ok rs => rs | .error _ => []) := rfl

/-- C3: the Query Runner returns `[]` (raising nothing) when submission
throws, when a poll throws after only non-terminal polls, when the first
terminal poll within the 30-poll ceiling (60 time units at interval 2)
reports `Failed` or `Cancelled`, and when all 30 polls are non-terminal
(timeout); it returns the matched records exactly when that first terminal
poll reports `Complete`. -/
theorem query_runner_soft_fails (start_id : String) (poll : Nat → PollResult) :
    (∀ e, query_logs (.error e) poll = []) ∧
    (∀ n, n < 30 → (∀ k, k < n → nonTerminalPoll (poll k)) →
      ((∀ e, poll n = .error e → query_logs (.ok start_id) poll = []) ∧
       (∀ rs, poll n = .ok ("Failed", rs) → query_logs (.ok start_id) poll = []) ∧
       (∀ rs, poll n = .ok ("Cancelled", rs) → query_logs (.ok start_id) poll = []) ∧
       (∀ rs, poll n = .ok ("Complete", rs) → query_logs (.ok start_id) poll = rs))) ∧
    ((∀ k, k < 30 → nonTerminalPoll (poll k)) → query_logs (.ok start_id) poll = []) := by
  refine ⟨fun e => rfl, ?_, ?_⟩
  · intro n hn hpre
    have hskip := poll_loop_skip poll n (by omega) hpre
    refine ⟨?_, ?_, ?_, ?_⟩
    · intro e he
      rw [query_logs_ok_eq, hskip, poll_loop_unfold poll n hn, he]
    · intro rs hrs
      rw [query_logs_ok_eq, hskip, poll_loop_unfold poll n hn, hrs]
      simp
    · intro rs hrs
      rw [query_logs_ok_eq, hskip, poll_loop_unfold poll n hn, hrs]
      simp
    · intro rs hrs
      rw [query_logs_ok_eq, hskip, poll_loop_unfold poll n hn, hrs]
      simp
  · intro hall
    have hskip := poll_loop_skip poll 30 (le_refl 30) (fun k hk => hall k hk)
    rw [query_logs_ok_eq, hskip]
    rw [show (2 * 30 : Nat) = 60 from rfl, poll_loop_timeout]

/-- C3 witness: with a first poll reporting `Failed`, the Query Runner
returns the empty sequence. -/
theorem query_runner_soft_fails_witness :
    query_logs (.ok "qid") pollFails = [] :=
  ((query_runner_soft_fails "qid" pollFails).2.1 0 (by omega)
    (fun k hk => absurd hk (Nat.not_lt_zero k))).2.1 recsA rfl
